import Mathlib

/-!
Verification of the CSC3301 course-administration grading scripts.

This file gives a shallow embedding of the grading logic of
`scripts/grade_calculator.py`, the per-submission error handling of
`scripts/run_hidden_tests.py`, and the exit-code behaviour of
`scripts/run_prolog_tests.py`, and proves the stated properties of the
specification against it.

Python floats are modelled by rational numbers; decimal literals such as
0.40 are taken at their decimal value.  CSV parsing and file input are
out of scope (the spec treats them as external plumbing): loaders take
an already-parsed list of rows, and a possibly missing file is an
`Option` of such a list.
-/

/-! ## Grade calculator: data model (grade_calculator.py) -/

/-- Weight table, mirroring `GradeCalculator.DEFAULT_WEIGHTS`. -/
structure Weights where
  visible_tests : ℚ
  hidden_tests : ℚ
  code_quality : ℚ
  participation : ℚ
deriving DecidableEq

/-- The default weights 0.40 / 0.30 / 0.20 / 0.10. -/
def DEFAULT_WEIGHTS : Weights :=
  { visible_tests := 40/100
    hidden_tests := 30/100
    code_quality := 20/100
    participation := 10/100 }

/-- Plagiarism thresholds, mirroring `GradeCalculator.PLAGIARISM_THRESHOLDS`. -/
structure PlagiarismThresholds where
  warning : ℚ
  penalty_start : ℚ
  severe : ℚ
deriving DecidableEq

/-- The threshold table: warning 40, penalty_start 50, severe 80. -/
def PLAGIARISM_THRESHOLDS : PlagiarismThresholds :=
  { warning := 40, penalty_start := 50, severe := 80 }

/-- Letter grade boundary table, mirroring `GradeCalculator.GRADE_BOUNDARIES`:
a descending list of pairs of threshold and grade. -/
def GRADE_BOUNDARIES : List (ℚ × String) :=
  [(90, "A+"), (85, "A"), (80, "A-"),
   (75, "B+"), (70, "B"), (65, "B-"),
   (60, "C+"), (55, "C"), (50, "C-"),
   (45, "D+"), (40, "D"),
   (0, "F")]

/-- Complete grade record for a student, mirroring the `GradeRecord`
dataclass with its field defaults. -/
structure GradeRecord where
  student_id : String
  github_username : String := ""
  visible_score : ℚ := 0
  hidden_score : ℚ := 0
  code_quality_score : ℚ := 100
  plagiarism_similarity : ℚ := 0
  plagiarism_flag : Bool := false
  plagiarism_partner : String := ""
  final_score : ℚ := 0
  letter_grade : String := ""
  comments : List String := []
deriving DecidableEq

/-- The in-memory grade table `self.grades`: an insertion-ordered map from
student id to record, modelled as an association list. -/
abbrev Grades := List (String × GradeRecord)

/-! ## Grade calculator: penalty, letter grade, finalization -/

/-- Embedding of `GradeCalculator._calculate_plagiarism_penalty`. -/
def calculatePlagiarismPenalty (similarity : ℚ) : ℚ :=
  if similarity < PLAGIARISM_THRESHOLDS.penalty_start then 0
  else if PLAGIARISM_THRESHOLDS.severe ≤ similarity then 50/100
  else
    ((similarity - PLAGIARISM_THRESHOLDS.penalty_start) /
        (PLAGIARISM_THRESHOLDS.severe - PLAGIARISM_THRESHOLDS.penalty_start)) *
      (50/100)

/-- Loop body of `GradeCalculator._get_letter_grade`: scan the boundary
table in order and return the first grade whose threshold the score meets. -/
def gradeFromBoundaries : List (ℚ × String) → ℚ → String
  | [], _ => "F"
  | (threshold, grade) :: rest, score =>
      if threshold ≤ score then grade else gradeFromBoundaries rest score

/-- Embedding of `GradeCalculator._get_letter_grade`. -/
def getLetterGrade (score : ℚ) : String :=
  gradeFromBoundaries GRADE_BOUNDARIES score

/-- Text of the plagiarism warning comment appended in
`calculate_final_grades` (the Python percent formatting of the similarity
is abstracted by `toString`). -/
def warningComment (similarity : ℚ) (partner : String) : String :=
  "Plagiarism warning: " ++ toString similarity ++ "% similarity with " ++ partner

/-- Text of the plagiarism penalty comment appended in
`calculate_final_grades` (numeric formatting abstracted by `toString`). -/
def penaltyComment (penalty : ℚ) : String :=
  "Plagiarism penalty: -" ++ toString (penalty * 100) ++ "%"

/-- The weighted base score computed at the top of the
`calculate_final_grades` loop body. -/
def baseScore (weights : Weights) (record : GradeRecord) : ℚ :=
  record.visible_score * weights.visible_tests +
    record.hidden_score * weights.hidden_tests +
    record.code_quality_score * weights.code_quality

/-- Loop body of `GradeCalculator.calculate_final_grades`, acting on one
record: flag and comment at the warning threshold, apply the penalty
branch, and assign the letter grade. -/
def finalizeRecord (weights : Weights) (record : GradeRecord) : GradeRecord :=
  let base_score := baseScore weights record
  let record :=
    if PLAGIARISM_THRESHOLDS.warning ≤ record.plagiarism_similarity then
      { record with
          plagiarism_flag := true
          comments := record.comments ++
            [warningComment record.plagiarism_similarity record.plagiarism_partner] }
    else record
  let penalty := calculatePlagiarismPenalty record.plagiarism_similarity
  let record :=
    if 0 < penalty then
      { record with
          final_score := base_score * (1 - penalty)
          comments := record.comments ++ [penaltyComment penalty] }
    else
      { record with final_score := base_score }
  { record with letter_grade := getLetterGrade record.final_score }

/-- Embedding of `GradeCalculator.calculate_final_grades`: the loop over
all stored records. -/
def calculateFinalGrades (weights : Weights) (grades : Grades) : Grades :=
  grades.map (fun p => (p.1, finalizeRecord weights p.2))

/-! ## Grade calculator: score-source loaders -/

/-- Membership test `student_id in self.grades` on the association list. -/
def containsStudent (grades : Grades) (sid : String) : Bool :=
  grades.any (fun p => p.1 == sid)

/-- Dictionary lookup `self.grades[student_id]`. -/
def lookupStudent (grades : Grades) (sid : String) : Option GradeRecord :=
  (grades.find? (fun p => p.1 == sid)).map Prod.snd

/-- Mutation of the record stored under a student id. -/
def updateStudent (grades : Grades) (sid : String)
    (f : GradeRecord → GradeRecord) : Grades :=
  grades.map (fun p => if p.1 == sid then (p.1, f p.2) else p)

/-- The fresh record `GradeRecord(student_id=student_id)` with all defaults. -/
def freshRecord (sid : String) : GradeRecord := { student_id := sid }

/-- The guard `if student_id not in self.grades: self.grades[student_id] =
GradeRecord(student_id=student_id)` shared by the visible and hidden loaders. -/
def ensureStudent (grades : Grades) (sid : String) : Grades :=
  if containsStudent grades sid then grades
  else grades ++ [(sid, freshRecord sid)]

/-- Create-if-absent followed by a field update, the common shape of one
iteration of the visible and hidden loader loops. -/
def upsertStudent (grades : Grades) (sid : String)
    (f : GradeRecord → GradeRecord) : Grades :=
  updateStudent (ensureStudent grades sid) sid f

/-- Generic loader loop: one upsert per parsed row. -/
def loadRows {α : Type} (key : α → String) (set : α → GradeRecord → GradeRecord)
    (rows : List α) (grades : Grades) : Grades :=
  rows.foldl (fun g row => upsertStudent g (key row) (set row)) grades

/-- One parsed row of the visible-scores CSV (header aliasing already
resolved, as the spec puts header probing at the boundary). -/
structure VisibleRow where
  student_id : String
  grade : ℚ
deriving DecidableEq

/-- Embedding of `GradeCalculator.load_visible_scores` on parsed rows. -/
def loadVisibleScores (rows : List VisibleRow) (grades : Grades) : Grades :=
  loadRows (fun row => row.student_id)
    (fun row r => { r with visible_score := row.grade }) rows grades

/-- One parsed row of the hidden-scores CSV. -/
structure HiddenRow where
  student_id : String
  hidden_score : ℚ
  repository : String
deriving DecidableEq

/-- Python single-character split (`str.split` with a one-character
separator), modelled over the character list of a string so it can be
evaluated on concrete inputs. -/
def splitOnChar (c : Char) : List Char → List (List Char)
  | [] => [[]]
  | x :: xs =>
      let rest := splitOnChar c xs
      if x == c then [] :: rest
      else (x :: rest.headD []) :: rest.tail

/-- The last segment of a single-character split: `s.split(c)[-1]`. -/
def lastSplitSegment (c : Char) (s : String) : String :=
  String.mk ((splitOnChar c s.data).getLastD [])

/-- Embedding of `GradeCalculator.load_hidden_scores` on parsed rows; the
github username is the last slash-separated segment of the repository. -/
def loadHiddenScores (rows : List HiddenRow) (grades : Grades) : Grades :=
  loadRows (fun row => row.student_id)
    (fun row r =>
      { r with
          hidden_score := row.hidden_score
          github_username := lastSplitSegment '/' row.repository })
    rows grades

/-- One parsed row of the plagiarism report CSV: two submission names and
a similarity percentage. -/
structure PlagRow where
  submission1 : String
  submission2 : String
  similarity : ℚ
deriving DecidableEq

/-- The id extraction in `load_plagiarism_results`:
`sid.split(hyphen)[-1] if hyphen in sid else sid`. -/
def extractStudentIdFromSubmission (sid : String) : String :=
  if sid.data.contains '-' then lastSplitSegment '-' sid else sid

/-- One direction of the pairing loop in `load_plagiarism_results`: update
only if the extracted id is already present and the new similarity is
strictly larger than the stored one. -/
def plagiarismStep (grades : Grades) (sid partner : String)
    (similarity : ℚ) : Grades :=
  let student_id := extractStudentIdFromSubmission sid
  if containsStudent grades student_id then
    updateStudent grades student_id (fun r =>
      if r.plagiarism_similarity < similarity then
        { r with
            plagiarism_similarity := similarity
            plagiarism_partner := partner }
      else r)
  else grades

/-- One row of the plagiarism loop: both directions of the pairing. -/
def loadPlagiarismRow (grades : Grades) (row : PlagRow) : Grades :=
  plagiarismStep
    (plagiarismStep grades row.submission1 row.submission2 row.similarity)
    row.submission2 row.submission1 row.similarity

/-- Embedding of `GradeCalculator.load_plagiarism_results` on parsed rows. -/
def loadPlagiarismResults (rows : List PlagRow) (grades : Grades) : Grades :=
  rows.foldl loadPlagiarismRow grades

/-! ## Grade calculator: file-level loader behaviour

A source file is `none` when missing.  `load_visible_scores` and
`load_hidden_scores` call `open` unguarded, so a missing file raises
(modelled as `Except.error`); `load_plagiarism_results` starts with
`if not csv_path.exists(): return`, so a missing file leaves the table
unchanged. -/

/-- File-level behaviour of `load_visible_scores`. -/
def loadVisibleScoresFile (file : Option (List VisibleRow))
    (grades : Grades) : Except String Grades :=
  match file with
  | none => Except.error "FileNotFoundError"
  | some rows => Except.ok (loadVisibleScores rows grades)

/-- File-level behaviour of `load_hidden_scores`. -/
def loadHiddenScoresFile (file : Option (List HiddenRow))
    (grades : Grades) : Except String Grades :=
  match file with
  | none => Except.error "FileNotFoundError"
  | some rows => Except.ok (loadHiddenScores rows grades)

/-- File-level behaviour of `load_plagiarism_results`. -/
def loadPlagiarismResultsFile (file : Option (List PlagRow))
    (grades : Grades) : Grades :=
  match file with
  | none => grades
  | some rows => loadPlagiarismResults rows grades

/-! ## Hidden test runner (run_hidden_tests.py)

The effectful parts of one submission run are abstracted into an
`ExecOutcome`: the parsed summary of a completed test process, a
`subprocess.TimeoutExpired`, or any other exception with its message. -/

/-- Parsed result dictionary of one test-framework invocation: the
summary counters plus an optional error entry. -/
structure TestSummary where
  passed : Nat
  total : Nat
  error : Option String
deriving DecidableEq

/-- What happens when the tests of one submission are executed. -/
inductive ExecOutcome where
  | success (summary : TestSummary)
  | timeout
  | failure (message : String)
deriving DecidableEq

/-- One submission directory as seen by the runner: its name, whether it
has a `src` subtree, and what executing its tests does. -/
structure Submission where
  name : String
  hasSrcDir : Bool
  exec : ExecOutcome
deriving DecidableEq

/-- Mirror of the `TestResult` dataclass (with its defaults). -/
structure TestResult where
  student_id : String
  repo_path : String
  tests_passed : Nat := 0
  tests_total : Nat := 0
  hidden_score : ℚ := 0
  errors : List String := []
deriving DecidableEq

/-- Python string slicing `s[:n]`, used to truncate diagnostics. -/
def truncateString (n : Nat) (s : String) : String :=
  String.mk (s.data.take n)

/-- Embedding of `HiddenTestRunner._extract_student_id`: the last
hyphen-separated token of the directory name, or the whole name when the
split yields fewer than two parts. -/
def extractStudentId (name : String) : String :=
  let parts := splitOnChar '-' name.data
  if 2 ≤ parts.length then String.mk (parts.getLastD []) else name

/-- Embedding of `HiddenTestRunner.run_on_submission`: missing `src`
yields a zero record with a diagnostic; a completed run reports the
parsed counters and the floored-denominator score; a timeout or any
other exception is caught at this boundary and converted into a zero
record with (truncated) diagnostic text. -/
def runOnSubmission (sub : Submission) : TestResult :=
  let student_id := extractStudentId sub.name
  if !sub.hasSrcDir then
    { student_id := student_id
      repo_path := sub.name
      errors := ["No src/ directory found"] }
  else
    match sub.exec with
    | ExecOutcome.success summary =>
        let score : ℚ :=
          if 0 < summary.total then
            (summary.passed : ℚ) / (summary.total : ℚ) * 100
          else 0
        { student_id := student_id
          repo_path := sub.name
          tests_passed := summary.passed
          tests_total := summary.total
          hidden_score := score
          errors :=
            match summary.error with
            | some e => [truncateString 500 e]
            | none => [] }
    | ExecOutcome.timeout =>
        { student_id := student_id
          repo_path := sub.name
          errors := ["Test execution timed out"] }
    | ExecOutcome.failure message =>
        { student_id := student_id
          repo_path := sub.name
          errors := ["Test execution failed: " ++ truncateString 200 message] }

/-- Insertion of one submission into a name-sorted list, for the
`sorted(submissions)` iteration order of `run_all`. -/
def insertSubmission (sub : Submission) : List Submission → List Submission
  | [] => [sub]
  | s :: rest =>
      if sub.name ≤ s.name then sub :: s :: rest
      else s :: insertSubmission sub rest

/-- Name-sorting of the submission list (insertion sort). -/
def sortSubmissions (subs : List Submission) : List Submission :=
  subs.foldr insertSubmission []

/-- The hidden-marker test `p.name.startswith(dot)` of `run_all`: whether
the first character of the name is a dot. -/
def startsWithDot (s : String) : Bool :=
  match s.data with
  | [] => false
  | c :: _ => c == '.'

/-- Embedding of `HiddenTestRunner.run_all`: filter out hidden-marker
directories, iterate in sorted order, one result per submission. -/
def runAll (subs : List Submission) : List TestResult :=
  (sortSubmissions (subs.filter (fun s => !(startsWithDot s.name)))).map
    runOnSubmission

/-- Configuration handed to `HiddenTestRunner.__init__`. -/
structure RunnerConfig where
  hidden_tests_root : String
  submissions_path : String
  assignment_id : String
  course_id : String
deriving DecidableEq

/-- The concrete hidden-test directory
`hidden_tests_path / course_id / assignment_id`. -/
def hiddenTestsDir (cfg : RunnerConfig) : String :=
  cfg.hidden_tests_root ++ "/" ++ cfg.course_id ++ "/" ++ cfg.assignment_id

/-- The constructed runner state. -/
structure HiddenTestRunner where
  hidden_tests_path : String
  submissions_path : String
  assignment_id : String
  course_id : String
deriving DecidableEq

/-- Embedding of `HiddenTestRunner.__init__`: raises `ValueError` when
the resolved hidden-test directory does not exist (`dirExists` abstracts
the filesystem check), before any submission is looked at. -/
def initRunner (cfg : RunnerConfig) (dirExists : Bool) :
    Except String HiddenTestRunner :=
  if !dirExists then
    Except.error ("Hidden tests not found: " ++ hiddenTestsDir cfg)
  else
    Except.ok
      { hidden_tests_path := hiddenTestsDir cfg
        submissions_path := cfg.submissions_path
        assignment_id := cfg.assignment_id
        course_id := cfg.course_id }

/-! ## Standalone prolog runner exit code (run_prolog_tests.py) -/

/-- The shape of the results dictionary returned by `run_prolog_tests`:
whether it carries an error entry, and the parsed counters. -/
structure PrologResults where
  hasError : Bool
  passed : Nat
  failed : Nat
deriving DecidableEq

/-- Exit code of `main` in run_prolog_tests.py: usage error, then
`sys.exit(1)` when the results carry an error entry, then `sys.exit(1)`
when any test failed, else `sys.exit(0)`. -/
def prologMainExitCode (argcOk : Bool) (results : PrologResults) : Nat :=
  if !argcOk then 1
  else if results.hasError then 1
  else if 0 < results.failed then 1
  else 0

/-! ## Properties of the plagiarism penalty -/

/-- The penalty function is the ramp `(s - 50) / 60` clamped to `[0, 1/2]`. -/
theorem penalty_eq_clamp (s : ℚ) :
    calculatePlagiarismPenalty s = max 0 (min (50/100) ((s - 50) / 60)) := by
  have h60 : (0:ℚ) < 60 := by norm_num
  simp only [calculatePlagiarismPenalty, PLAGIARISM_THRESHOLDS]
  rcases lt_or_le s 50 with h | h
  · rw [if_pos h]
    have hx : (s - 50) / 60 ≤ 0 :=
      div_nonpos_iff.mpr (Or.inr ⟨by linarith, by norm_num⟩)
    rw [max_eq_left (le_trans (min_le_right _ _) hx)]
  · rw [if_neg (not_lt.mpr h)]
    rcases le_or_lt 80 s with h80 | h80
    · rw [if_pos h80]
      have hx : (50/100 : ℚ) ≤ (s - 50) / 60 := by
        rw [le_div_iff₀ h60]; linarith
      rw [min_eq_left hx, max_eq_right (by norm_num : (0:ℚ) ≤ 50/100)]
    · rw [if_neg (not_le.mpr h80)]
      have hx0 : (0:ℚ) ≤ (s - 50) / 60 := div_nonneg (by linarith) (by norm_num)
      have hx1 : (s - 50) / 60 ≤ 50/100 := by
        rw [div_le_iff₀ h60]; linarith
      rw [min_eq_right hx1, max_eq_right hx0]
      ring

/-- The penalty is monotone non-decreasing. -/
theorem penalty_mono {a b : ℚ} (h : a ≤ b) :
    calculatePlagiarismPenalty a ≤ calculatePlagiarismPenalty b := by
  rw [penalty_eq_clamp, penalty_eq_clamp]
  exact max_le_max le_rfl
    (min_le_min le_rfl ((div_le_div_iff_of_pos_right (by norm_num)).mpr (by linarith)))

/-- The penalty is 1-Lipschitz. -/
theorem penalty_lipschitz (a b : ℚ) :
    |calculatePlagiarismPenalty a - calculatePlagiarismPenalty b| ≤ |a - b| := by
  rw [penalty_eq_clamp, penalty_eq_clamp]
  have h1 :
      |max 0 (min (50/100) ((a - 50) / 60)) -
          max 0 (min (50/100) ((b - 50) / 60))| ≤
        |min (50/100 : ℚ) ((a - 50) / 60) - min (50/100) ((b - 50) / 60)| := by
    rw [max_comm 0 (min (50/100 : ℚ) ((a - 50) / 60)),
      max_comm 0 (min (50/100 : ℚ) ((b - 50) / 60))]
    exact abs_max_sub_max_le_abs _ _ _
  have h2 :
      |min (50/100 : ℚ) ((a - 50) / 60) - min (50/100) ((b - 50) / 60)| ≤
        |(a - 50) / 60 - (b - 50) / 60| := by
    have := abs_min_sub_min_le_max (50/100 : ℚ) ((a - 50) / 60)
      (50/100) ((b - 50) / 60)
    simpa using this
  have h3 : |(a - 50) / 60 - (b - 50) / 60| ≤ |a - b| := by
    have he : (a - 50) / 60 - (b - 50) / 60 = (a - b) / 60 := by ring
    rw [he, abs_div]
    calc |a - b| / |(60:ℚ)| = |a - b| / 60 := by norm_num
    _ ≤ |a - b| := div_le_self (abs_nonneg _) (by norm_num)
  exact le_trans h1 (le_trans h2 h3)

/-- C1: the plagiarism penalty is the stated piecewise function of the
similarity: zero below 50, the flat maximum 0.50 at and above 80, the
linear ramp `(s - 50) / (80 - 50) * 0.50` on `[50, 80)`; it is monotone
non-decreasing and continuous (epsilon-delta) everywhere. -/
theorem C1_plagiarism_penalty_piecewise :
    (∀ s : ℚ, s < 50 → calculatePlagiarismPenalty s = 0) ∧
    (∀ s : ℚ, 80 ≤ s → calculatePlagiarismPenalty s = 50/100) ∧
    (∀ s : ℚ, 50 ≤ s → s < 80 →
      calculatePlagiarismPenalty s = (s - 50) / (80 - 50) * (50/100)) ∧
    (∀ a b : ℚ, a ≤ b →
      calculatePlagiarismPenalty a ≤ calculatePlagiarismPenalty b) ∧
    (∀ s ε : ℚ, 0 < ε → ∃ δ : ℚ, 0 < δ ∧ ∀ t : ℚ, |t - s| < δ →
      |calculatePlagiarismPenalty t - calculatePlagiarismPenalty s| < ε) := by
  refine ⟨?_, ?_, ?_, ?_, ?_⟩
  · intro s h
    simp [calculatePlagiarismPenalty, PLAGIARISM_THRESHOLDS, h]
  · intro s h
    have hn : ¬ (s < 50) := by linarith
    simp [calculatePlagiarismPenalty, PLAGIARISM_THRESHOLDS, hn, h]
  · intro s h1 h2
    have hn : ¬ (s < 50) := not_lt.mpr h1
    have hn2 : ¬ (80 ≤ s) := not_le.mpr h2
    simp [calculatePlagiarismPenalty, PLAGIARISM_THRESHOLDS, hn, hn2]
  · intro a b h
    exact penalty_mono h
  · intro s ε hε
    exact ⟨ε, hε, fun t ht => lt_of_le_of_lt (penalty_lipschitz t s) ht⟩

/-- Witness for C1 at concrete similarities. -/
theorem C1_plagiarism_penalty_piecewise_witness :
    calculatePlagiarismPenalty 49 = 0 ∧
    calculatePlagiarismPenalty 80 = 50/100 ∧
    calculatePlagiarismPenalty 65 = (65 - 50) / (80 - 50) * (50/100) ∧
    calculatePlagiarismPenalty 60 ≤ calculatePlagiarismPenalty 70 ∧
    (∃ δ : ℚ, 0 < δ ∧ ∀ t : ℚ, |t - 65| < δ →
      |calculatePlagiarismPenalty t - calculatePlagiarismPenalty 65| < 1) :=
  ⟨C1_plagiarism_penalty_piecewise.1 49 (by norm_num),
   C1_plagiarism_penalty_piecewise.2.1 80 (by norm_num),
   C1_plagiarism_penalty_piecewise.2.2.1 65 (by norm_num) (by norm_num),
   C1_plagiarism_penalty_piecewise.2.2.2.1 60 70 (by norm_num),
   C1_plagiarism_penalty_piecewise.2.2.2.2 65 1 (by norm_num)⟩

/-! ## Structure of one finalization step -/

/-- Finalization does not change the visible score. -/
theorem finalizeRecord_visible_score (w : Weights) (r : GradeRecord) :
    (finalizeRecord w r).visible_score = r.visible_score := by
  simp only [finalizeRecord]
  split_ifs <;> rfl

/-- Finalization does not change the hidden score. -/
theorem finalizeRecord_hidden_score (w : Weights) (r : GradeRecord) :
    (finalizeRecord w r).hidden_score = r.hidden_score := by
  simp only [finalizeRecord]
  split_ifs <;> rfl

/-- Finalization does not change the code quality score. -/
theorem finalizeRecord_code_quality_score (w : Weights) (r : GradeRecord) :
    (finalizeRecord w r).code_quality_score = r.code_quality_score := by
  simp only [finalizeRecord]
  split_ifs <;> rfl

/-- Finalization does not change the stored similarity. -/
theorem finalizeRecord_similarity (w : Weights) (r : GradeRecord) :
    (finalizeRecord w r).plagiarism_similarity = r.plagiarism_similarity := by
  simp only [finalizeRecord]
  split_ifs <;> rfl

/-- Finalization does not change the stored partner. -/
theorem finalizeRecord_partner (w : Weights) (r : GradeRecord) :
    (finalizeRecord w r).plagiarism_partner = r.plagiarism_partner := by
  simp only [finalizeRecord]
  split_ifs <;> rfl

/-- The flag after finalization: set at the warning threshold, otherwise
left as it was. -/
theorem finalizeRecord_flag (w : Weights) (r : GradeRecord) :
    (finalizeRecord w r).plagiarism_flag =
      if 40 ≤ r.plagiarism_similarity then true else r.plagiarism_flag := by
  simp only [finalizeRecord, PLAGIARISM_THRESHOLDS]
  split_ifs <;> rfl

/-- The final score after finalization: the penalty branch of the loop. -/
theorem finalizeRecord_final_score (w : Weights) (r : GradeRecord) :
    (finalizeRecord w r).final_score =
      if 0 < calculatePlagiarismPenalty r.plagiarism_similarity then
        baseScore w r * (1 - calculatePlagiarismPenalty r.plagiarism_similarity)
      else baseScore w r := by
  simp only [finalizeRecord, PLAGIARISM_THRESHOLDS]
  split_ifs <;> rfl

/-- The comments after finalization: the prior comments, then the warning
comment when the warning threshold is met, then the penalty comment when
the penalty is positive. -/
theorem finalizeRecord_comments (w : Weights) (r : GradeRecord) :
    (finalizeRecord w r).comments =
      r.comments ++
        (if 40 ≤ r.plagiarism_similarity then
           [warningComment r.plagiarism_similarity r.plagiarism_partner]
         else []) ++
        (if 0 < calculatePlagiarismPenalty r.plagiarism_similarity then
           [penaltyComment (calculatePlagiarismPenalty r.plagiarism_similarity)]
         else []) := by
  simp only [finalizeRecord, PLAGIARISM_THRESHOLDS]
  split_ifs <;> simp

/-- The letter grade is assigned from the just-computed final score. -/
theorem finalizeRecord_letter_grade (w : Weights) (r : GradeRecord) :
    (finalizeRecord w r).letter_grade =
      getLetterGrade (finalizeRecord w r).final_score := by
  simp only [finalizeRecord]

/-- The base score only reads the three component scores, which
finalization preserves. -/
theorem baseScore_finalizeRecord (w w2 : Weights) (r : GradeRecord) :
    baseScore w (finalizeRecord w2 r) = baseScore w r := by
  simp only [baseScore, finalizeRecord_visible_score, finalizeRecord_hidden_score,
    finalizeRecord_code_quality_score]

/-! ## C2: final-score formula and penalty branch -/

/-- C2: with the default weights the base is
`visible*0.40 + hidden*0.30 + quality*0.20`; when the penalty is positive
the final score is `base * (1 - penalty)` and the penalty audit comment is
appended; when the penalty is zero the final score is the base unchanged
and no penalty comment is appended. -/
theorem C2_final_score_formula (record : GradeRecord) :
    baseScore DEFAULT_WEIGHTS record =
      record.visible_score * (40/100) + record.hidden_score * (30/100) +
        record.code_quality_score * (20/100) ∧
    (0 < calculatePlagiarismPenalty record.plagiarism_similarity →
      (finalizeRecord DEFAULT_WEIGHTS record).final_score =
          baseScore DEFAULT_WEIGHTS record *
            (1 - calculatePlagiarismPenalty record.plagiarism_similarity) ∧
        (finalizeRecord DEFAULT_WEIGHTS record).comments =
          record.comments ++
            (if 40 ≤ record.plagiarism_similarity then
               [warningComment record.plagiarism_similarity
                  record.plagiarism_partner]
             else []) ++
            [penaltyComment
              (calculatePlagiarismPenalty record.plagiarism_similarity)]) ∧
    (calculatePlagiarismPenalty record.plagiarism_similarity = 0 →
      (finalizeRecord DEFAULT_WEIGHTS record).final_score =
          baseScore DEFAULT_WEIGHTS record ∧
        (finalizeRecord DEFAULT_WEIGHTS record).comments =
          record.comments ++
            (if 40 ≤ record.plagiarism_similarity then
               [warningComment record.plagiarism_similarity
                  record.plagiarism_partner]
             else [])) := by
  refine ⟨by simp [baseScore, DEFAULT_WEIGHTS], fun hpen => ⟨?_, ?_⟩,
    fun hpen => ⟨?_, ?_⟩⟩
  · rw [finalizeRecord_final_score, if_pos hpen]
  · rw [finalizeRecord_comments, if_pos hpen]
  · rw [finalizeRecord_final_score, if_neg (by rw [hpen]; exact lt_irrefl 0)]
  · rw [finalizeRecord_comments]
    simp [hpen]

/-- Sample record with severe similarity for the C2 witness. -/
def C2sampleFlagged : GradeRecord :=
  { student_id := "alice"
    visible_score := 100
    hidden_score := 80
    plagiarism_similarity := 85
    plagiarism_partner := "lab01-bob" }

/-- Sample record with no plagiarism for the C2 witness. -/
def C2sampleClean : GradeRecord :=
  { student_id := "carol", visible_score := 90, hidden_score := 70 }

/-- Witness for C2 on a penalised and on a clean record. -/
theorem C2_final_score_formula_witness :
    (0 < calculatePlagiarismPenalty C2sampleFlagged.plagiarism_similarity ∧
      (finalizeRecord DEFAULT_WEIGHTS C2sampleFlagged).final_score =
        baseScore DEFAULT_WEIGHTS C2sampleFlagged *
          (1 - calculatePlagiarismPenalty
            C2sampleFlagged.plagiarism_similarity)) ∧
    (calculatePlagiarismPenalty C2sampleClean.plagiarism_similarity = 0 ∧
      (finalizeRecord DEFAULT_WEIGHTS C2sampleClean).final_score =
        baseScore DEFAULT_WEIGHTS C2sampleClean) := by
  have hpenA : 0 < calculatePlagiarismPenalty
      C2sampleFlagged.plagiarism_similarity := by
    norm_num [C2sampleFlagged, calculatePlagiarismPenalty, PLAGIARISM_THRESHOLDS]
  have hpen0 : calculatePlagiarismPenalty
      C2sampleClean.plagiarism_similarity = 0 := by
    norm_num [C2sampleClean, calculatePlagiarismPenalty, PLAGIARISM_THRESHOLDS]
  exact ⟨⟨hpenA, ((C2_final_score_formula C2sampleFlagged).2.1 hpenA).1⟩,
    ⟨hpen0, ((C2_final_score_formula C2sampleClean).2.2 hpen0).1⟩⟩

/-! ## C8: the warning threshold flags but never reduces the score -/

/-- C8: at or above similarity 40 the record is flagged and the warning
comment appended; in `[40, 50)` the final score is still the unreduced
weighted base, so flagging and penalising are independent triggers. -/
theorem C8_warning_flag_never_reduces (r : GradeRecord) :
    (40 ≤ r.plagiarism_similarity →
      (finalizeRecord DEFAULT_WEIGHTS r).plagiarism_flag = true ∧
      (finalizeRecord DEFAULT_WEIGHTS r).comments =
        r.comments ++
          [warningComment r.plagiarism_similarity r.plagiarism_partner] ++
          (if 0 < calculatePlagiarismPenalty r.plagiarism_similarity then
             [penaltyComment (calculatePlagiarismPenalty r.plagiarism_similarity)]
           else [])) ∧
    (40 ≤ r.plagiarism_similarity → r.plagiarism_similarity < 50 →
      (finalizeRecord DEFAULT_WEIGHTS r).final_score =
        baseScore DEFAULT_WEIGHTS r) := by
  constructor
  · intro hw
    refine ⟨by rw [finalizeRecord_flag, if_pos hw], ?_⟩
    rw [finalizeRecord_comments, if_pos hw]
  · intro _ hlt
    have hpen : calculatePlagiarismPenalty r.plagiarism_similarity = 0 :=
      C1_plagiarism_penalty_piecewise.1 _ hlt
    rw [finalizeRecord_final_score, if_neg (by rw [hpen]; exact lt_irrefl 0)]

/-- Sample record in the warn-but-not-penalise band for the C8 witness. -/
def C8sampleWarned : GradeRecord :=
  { student_id := "dave"
    visible_score := 80
    hidden_score := 60
    plagiarism_similarity := 45
    plagiarism_partner := "lab01-erin" }

/-- Witness for C8 at similarity 45. -/
theorem C8_warning_flag_never_reduces_witness :
    (40 ≤ C8sampleWarned.plagiarism_similarity ∧
      C8sampleWarned.plagiarism_similarity < 50) ∧
    (finalizeRecord DEFAULT_WEIGHTS C8sampleWarned).plagiarism_flag = true ∧
    (finalizeRecord DEFAULT_WEIGHTS C8sampleWarned).final_score =
      baseScore DEFAULT_WEIGHTS C8sampleWarned := by
  have h1 : (40:ℚ) ≤ C8sampleWarned.plagiarism_similarity := by
    norm_num [C8sampleWarned]
  have h2 : C8sampleWarned.plagiarism_similarity < 50 := by
    norm_num [C8sampleWarned]
  exact ⟨⟨h1, h2⟩,
    ((C8_warning_flag_never_reduces C8sampleWarned).1 h1).1,
    (C8_warning_flag_never_reduces C8sampleWarned).2 h1 h2⟩

/-! ## C10: re-finalization is idempotent on scores, not on comments -/

/-- C10: finalizing an already finalized record recomputes the same final
score and letter grade (they derive from the unchanged component scores),
but appends the warning and penalty comments again, so for any record at
or above the warning threshold the comments list grows. -/
theorem C10_refinalize_idempotent_scores_duplicates_comments
    (w : Weights) (r : GradeRecord) :
    (finalizeRecord w (finalizeRecord w r)).final_score =
      (finalizeRecord w r).final_score ∧
    (finalizeRecord w (finalizeRecord w r)).letter_grade =
      (finalizeRecord w r).letter_grade ∧
    (finalizeRecord w (finalizeRecord w r)).comments =
      (finalizeRecord w r).comments ++
        (if 40 ≤ r.plagiarism_similarity then
           [warningComment r.plagiarism_similarity r.plagiarism_partner]
         else []) ++
        (if 0 < calculatePlagiarismPenalty r.plagiarism_similarity then
           [penaltyComment (calculatePlagiarismPenalty r.plagiarism_similarity)]
         else []) ∧
    (40 ≤ r.plagiarism_similarity →
      (finalizeRecord w (finalizeRecord w r)).comments ≠
        (finalizeRecord w r).comments) := by
  have hscore : (finalizeRecord w (finalizeRecord w r)).final_score =
      (finalizeRecord w r).final_score := by
    rw [finalizeRecord_final_score w (finalizeRecord w r),
      finalizeRecord_final_score w r, finalizeRecord_similarity,
      baseScore_finalizeRecord]
  refine ⟨hscore, ?_, ?_, ?_⟩
  · rw [finalizeRecord_letter_grade w (finalizeRecord w r),
      finalizeRecord_letter_grade w r, hscore]
  · rw [finalizeRecord_comments w (finalizeRecord w r),
      finalizeRecord_similarity, finalizeRecord_partner]
  · intro hw
    rw [finalizeRecord_comments w (finalizeRecord w r),
      finalizeRecord_similarity, finalizeRecord_partner, if_pos hw]
    intro habs
    have hlen := congrArg List.length habs
    simp [List.length_append] at hlen

/-- Sample record for the C10 witness. -/
def C10sample : GradeRecord :=
  { student_id := "frank"
    visible_score := 70
    hidden_score := 50
    plagiarism_similarity := 60
    plagiarism_partner := "lab01-gina" }

/-- Witness for C10: scores unchanged, comments list strictly grows. -/
theorem C10_refinalize_idempotent_scores_duplicates_comments_witness :
    40 ≤ C10sample.plagiarism_similarity ∧
    (finalizeRecord DEFAULT_WEIGHTS (finalizeRecord DEFAULT_WEIGHTS C10sample)).final_score =
      (finalizeRecord DEFAULT_WEIGHTS C10sample).final_score ∧
    (finalizeRecord DEFAULT_WEIGHTS (finalizeRecord DEFAULT_WEIGHTS C10sample)).comments ≠
      (finalizeRecord DEFAULT_WEIGHTS C10sample).comments := by
  have hw : (40:ℚ) ≤ C10sample.plagiarism_similarity := by norm_num [C10sample]
  exact ⟨hw,
    (C10_refinalize_idempotent_scores_duplicates_comments DEFAULT_WEIGHTS C10sample).1,
    (C10_refinalize_idempotent_scores_duplicates_comments DEFAULT_WEIGHTS C10sample).2.2.2 hw⟩

/-! ## C3: letter grade is the highest boundary met -/

/-- The thresholds occurring in the boundary table. -/
theorem mem_boundaries_cases (t : ℚ) (g : String)
    (hm : (t, g) ∈ GRADE_BOUNDARIES) :
    t = 90 ∨ t = 85 ∨ t = 80 ∨ t = 75 ∨ t = 70 ∨ t = 65 ∨ t = 60 ∨
      t = 55 ∨ t = 50 ∨ t = 45 ∨ t = 40 ∨ t = 0 := by
  simp [GRADE_BOUNDARIES] at hm
  tauto

/-- C3: for every nonnegative final score the assigned letter grade is the
grade of the highest boundary whose threshold the score meets or exceeds,
and scores exactly at a boundary take that boundary, as in the examples
90 to A+, 89.9 to A, 49.9 to D+. -/
theorem C3_letter_grade_highest_boundary :
    (∀ f : ℚ, 0 ≤ f → ∃ t g, (t, g) ∈ GRADE_BOUNDARIES ∧ t ≤ f ∧
      (∀ t2 g2, (t2, g2) ∈ GRADE_BOUNDARIES → t2 ≤ f → t2 ≤ t) ∧
      getLetterGrade f = g) ∧
    getLetterGrade 90 = "A+" ∧
    getLetterGrade (899/10) = "A" ∧
    getLetterGrade (499/10) = "D+" := by
  refine ⟨?_, ?_, ?_, ?_⟩
  · intro f hf
    rcases le_or_lt 90 f with h | h90
    · refine ⟨90, "A+", by simp [GRADE_BOUNDARIES], h, ?_, ?_⟩
      · intro t2 g2 hm h2
        rcases mem_boundaries_cases t2 g2 hm with
          rfl|rfl|rfl|rfl|rfl|rfl|rfl|rfl|rfl|rfl|rfl|rfl <;> norm_num
      · simp [getLetterGrade, gradeFromBoundaries, GRADE_BOUNDARIES, h]
    rcases le_or_lt 85 f with h | h85
    · refine ⟨85, "A", by simp [GRADE_BOUNDARIES], h, ?_, ?_⟩
      · intro t2 g2 hm h2
        rcases mem_boundaries_cases t2 g2 hm with
          rfl|rfl|rfl|rfl|rfl|rfl|rfl|rfl|rfl|rfl|rfl|rfl <;> linarith
      · simp [getLetterGrade, gradeFromBoundaries, GRADE_BOUNDARIES,
          not_le.mpr h90, h]
    rcases le_or_lt 80 f with h | h80
    · refine ⟨80, "A-", by simp [GRADE_BOUNDARIES], h, ?_, ?_⟩
      · intro t2 g2 hm h2
        rcases mem_boundaries_cases t2 g2 hm with
          rfl|rfl|rfl|rfl|rfl|rfl|rfl|rfl|rfl|rfl|rfl|rfl <;> linarith
      · simp [getLetterGrade, gradeFromBoundaries, GRADE_BOUNDARIES,
          not_le.mpr h90, not_le.mpr h85, h]
    rcases le_or_lt 75 f with h | h75
    · refine ⟨75, "B+", by simp [GRADE_BOUNDARIES], h, ?_, ?_⟩
      · intro t2 g2 hm h2
        rcases mem_boundaries_cases t2 g2 hm with
          rfl|rfl|rfl|rfl|rfl|rfl|rfl|rfl|rfl|rfl|rfl|rfl <;> linarith
      · simp [getLetterGrade, gradeFromBoundaries, GRADE_BOUNDARIES,
          not_le.mpr h90, not_le.mpr h85, not_le.mpr h80, h]
    rcases le_or_lt 70 f with h | h70
    · refine ⟨70, "B", by simp [GRADE_BOUNDARIES], h, ?_, ?_⟩
      · intro t2 g2 hm h2
        rcases mem_boundaries_cases t2 g2 hm with
          rfl|rfl|rfl|rfl|rfl|rfl|rfl|rfl|rfl|rfl|rfl|rfl <;> linarith
      · simp [getLetterGrade, gradeFromBoundaries, GRADE_BOUNDARIES,
          not_le.mpr h90, not_le.mpr h85, not_le.mpr h80, not_le.mpr h75, h]
    rcases le_or_lt 65 f with h | h65
    · refine ⟨65, "B-", by simp [GRADE_BOUNDARIES], h, ?_, ?_⟩
      · intro t2 g2 hm h2
        rcases mem_boundaries_cases t2 g2 hm with
          rfl|rfl|rfl|rfl|rfl|rfl|rfl|rfl|rfl|rfl|rfl|rfl <;> linarith
      · simp [getLetterGrade, gradeFromBoundaries, GRADE_BOUNDARIES,
          not_le.mpr h90, not_le.mpr h85, not_le.mpr h80, not_le.mpr h75,
          not_le.mpr h70, h]
    rcases le_or_lt 60 f with h | h60
    · refine ⟨60, "C+", by simp [GRADE_BOUNDARIES], h, ?_, ?_⟩
      · intro t2 g2 hm h2
        rcases mem_boundaries_cases t2 g2 hm with
          rfl|rfl|rfl|rfl|rfl|rfl|rfl|rfl|rfl|rfl|rfl|rfl <;> linarith
      · simp [getLetterGrade, gradeFromBoundaries, GRADE_BOUNDARIES,
          not_le.mpr h90, not_le.mpr h85, not_le.mpr h80, not_le.mpr h75,
          not_le.mpr h70, not_le.mpr h65, h]
    rcases le_or_lt 55 f with h | h55
    · refine ⟨55, "C", by simp [GRADE_BOUNDARIES], h, ?_, ?_⟩
      · intro t2 g2 hm h2
        rcases mem_boundaries_cases t2 g2 hm with
          rfl|rfl|rfl|rfl|rfl|rfl|rfl|rfl|rfl|rfl|rfl|rfl <;> linarith
      · simp [getLetterGrade, gradeFromBoundaries, GRADE_BOUNDARIES,
          not_le.mpr h90, not_le.mpr h85, not_le.mpr h80, not_le.mpr h75,
          not_le.mpr h70, not_le.mpr h65, not_le.mpr h60, h]
    rcases le_or_lt 50 f with h | h50
    · refine ⟨50, "C-", by simp [GRADE_BOUNDARIES], h, ?_, ?_⟩
      · intro t2 g2 hm h2
        rcases mem_boundaries_cases t2 g2 hm with
          rfl|rfl|rfl|rfl|rfl|rfl|rfl|rfl|rfl|rfl|rfl|rfl <;> linarith
      · simp [getLetterGrade, gradeFromBoundaries, GRADE_BOUNDARIES,
          not_le.mpr h90, not_le.mpr h85, not_le.mpr h80, not_le.mpr h75,
          not_le.mpr h70, not_le.mpr h65, not_le.mpr h60, not_le.mpr h55, h]
    rcases le_or_lt 45 f with h | h45
    · refine ⟨45, "D+", by simp [GRADE_BOUNDARIES], h, ?_, ?_⟩
      · intro t2 g2 hm h2
        rcases mem_boundaries_cases t2 g2 hm with
          rfl|rfl|rfl|rfl|rfl|rfl|rfl|rfl|rfl|rfl|rfl|rfl <;> linarith
      · simp [getLetterGrade, gradeFromBoundaries, GRADE_BOUNDARIES,
          not_le.mpr h90, not_le.mpr h85, not_le.mpr h80, not_le.mpr h75,
          not_le.mpr h70, not_le.mpr h65, not_le.mpr h60, not_le.mpr h55,
          not_le.mpr h50, h]
    rcases le_or_lt 40 f with h | h40
    · refine ⟨40, "D", by simp [GRADE_BOUNDARIES], h, ?_, ?_⟩
      · intro t2 g2 hm h2
        rcases mem_boundaries_cases t2 g2 hm with
          rfl|rfl|rfl|rfl|rfl|rfl|rfl|rfl|rfl|rfl|rfl|rfl <;> linarith
      · simp [getLetterGrade, gradeFromBoundaries, GRADE_BOUNDARIES,
          not_le.mpr h90, not_le.mpr h85, not_le.mpr h80, not_le.mpr h75,
          not_le.mpr h70, not_le.mpr h65, not_le.mpr h60, not_le.mpr h55,
          not_le.mpr h50, not_le.mpr h45, h]
    · refine ⟨0, "F", by simp [GRADE_BOUNDARIES], hf, ?_, ?_⟩
      · intro t2 g2 hm h2
        rcases mem_boundaries_cases t2 g2 hm with
          rfl|rfl|rfl|rfl|rfl|rfl|rfl|rfl|rfl|rfl|rfl|rfl <;> linarith
      · simp [getLetterGrade, gradeFromBoundaries, GRADE_BOUNDARIES,
          not_le.mpr h90, not_le.mpr h85, not_le.mpr h80, not_le.mpr h75,
          not_le.mpr h70, not_le.mpr h65, not_le.mpr h60, not_le.mpr h55,
          not_le.mpr h50, not_le.mpr h45, not_le.mpr h40, hf]
  · norm_num [getLetterGrade, gradeFromBoundaries, GRADE_BOUNDARIES]
  · norm_num [getLetterGrade, gradeFromBoundaries, GRADE_BOUNDARIES]
  · norm_num [getLetterGrade, gradeFromBoundaries, GRADE_BOUNDARIES]

/-- Witness for C3 at the concrete score 75. -/
theorem C3_letter_grade_highest_boundary_witness :
    0 ≤ (75:ℚ) ∧ ∃ t g, (t, g) ∈ GRADE_BOUNDARIES ∧ t ≤ (75:ℚ) ∧
      (∀ t2 g2, (t2, g2) ∈ GRADE_BOUNDARIES → t2 ≤ (75:ℚ) → t2 ≤ t) ∧
      getLetterGrade 75 = g :=
  ⟨by norm_num, C3_letter_grade_highest_boundary.1 75 (by norm_num)⟩

/-! ## C6: per-submission errors become zero-outcome records -/

/-- Inserting keeps one more element. -/
theorem length_insertSubmission (sub : Submission) (l : List Submission) :
    (insertSubmission sub l).length = l.length + 1 := by
  induction l with
  | nil => rfl
  | cons s rest ih =>
      simp only [insertSubmission]
      split_ifs <;> simp [ih]

/-- Sorting preserves the number of submissions. -/
theorem length_sortSubmissions (l : List Submission) :
    (sortSubmissions l).length = l.length := by
  induction l with
  | nil => rfl
  | cons s rest ih =>
      simp only [sortSubmissions, List.foldr] at ih ⊢
      rw [length_insertSubmission, ih, List.length_cons]

/-- C6: a timeout, a missing src subtree, or an unexpected exception in
one submission is converted at the per-submission boundary into a
zero-outcome record with (truncated) diagnostic text, the timeout
diagnostic contains the words timed out, and the batch still produces one
record per non-hidden submission directory. -/
theorem C6_per_submission_errors_isolated :
    (∀ sub : Submission, sub.hasSrcDir = true →
      sub.exec = ExecOutcome.timeout →
      (runOnSubmission sub).tests_passed = 0 ∧
      (runOnSubmission sub).tests_total = 0 ∧
      (runOnSubmission sub).hidden_score = 0 ∧
      (runOnSubmission sub).errors = ["Test execution timed out"]) ∧
    (∃ pre post : String,
      "Test execution timed out" = pre ++ "timed out" ++ post) ∧
    (∀ sub : Submission, sub.hasSrcDir = false →
      (runOnSubmission sub).tests_passed = 0 ∧
      (runOnSubmission sub).tests_total = 0 ∧
      (runOnSubmission sub).hidden_score = 0 ∧
      (runOnSubmission sub).errors = ["No src/ directory found"]) ∧
    (∀ (msg : String) (sub : Submission), sub.hasSrcDir = true →
      sub.exec = ExecOutcome.failure msg →
      (runOnSubmission sub).tests_passed = 0 ∧
      (runOnSubmission sub).tests_total = 0 ∧
      (runOnSubmission sub).hidden_score = 0 ∧
      (runOnSubmission sub).errors =
        ["Test execution failed: " ++ truncateString 200 msg] ∧
      (truncateString 200 msg).length ≤ 200) ∧
    (∀ subs : List Submission, (runAll subs).length =
      (subs.filter (fun s => !(startsWithDot s.name))).length) := by
  refine ⟨?_, ⟨"Test execution ", "", rfl⟩, ?_, ?_, ?_⟩
  · intro sub h1 h2
    obtain ⟨name, hasSrc, exec⟩ := sub
    simp only at h1 h2
    subst h1; subst h2
    simp [runOnSubmission]
  · intro sub h1
    obtain ⟨name, hasSrc, exec⟩ := sub
    simp only at h1
    subst h1
    simp [runOnSubmission]
  · intro msg sub h1 h2
    obtain ⟨name, hasSrc, exec⟩ := sub
    simp only at h1 h2
    subst h1; subst h2
    refine ⟨rfl, rfl, rfl, rfl, ?_⟩
    have h : (truncateString 200 msg).length = min 200 msg.data.length :=
      List.length_take 200 msg.data
    rw [h]
    exact min_le_left _ _
  · intro subs
    simp [runAll, length_sortSubmissions]

/-- Witness for C6 at a concrete timed-out, src-less and crashing
submission and a concrete batch. -/
theorem C6_per_submission_errors_isolated_witness :
    (runOnSubmission ⟨"lab01-alice", true, ExecOutcome.timeout⟩).tests_total = 0 ∧
    (runOnSubmission ⟨"lab01-alice", true, ExecOutcome.timeout⟩).errors =
      ["Test execution timed out"] ∧
    (runOnSubmission ⟨"lab01-bob", false,
        ExecOutcome.success ⟨5, 5, none⟩⟩).errors = ["No src/ directory found"] ∧
    (runOnSubmission ⟨"lab01-carol", true,
        ExecOutcome.failure "boom"⟩).tests_total = 0 ∧
    (runAll [⟨"lab01-alice", true, ExecOutcome.timeout⟩,
        ⟨".git", true, ExecOutcome.timeout⟩,
        ⟨"lab01-bob", true, ExecOutcome.success ⟨5, 5, none⟩⟩]).length = 2 := by
  refine ⟨?_, ?_, ?_, ?_, ?_⟩
  · exact (C6_per_submission_errors_isolated.1 _ rfl rfl).2.1
  · exact (C6_per_submission_errors_isolated.1 _ rfl rfl).2.2.2
  · exact (C6_per_submission_errors_isolated.2.2.1 _ rfl).2.2.2
  · exact (C6_per_submission_errors_isolated.2.2.2.1 "boom" _ rfl rfl).2.1
  · rw [C6_per_submission_errors_isolated.2.2.2.2]
    rfl

/-! ## C7: exit codes and the missing corpus -/

/-- C7 as stated is false: the standalone prolog test runner exits
non-zero on a pure per-item test failure.  Two tests failed, no error
entry is present (so no configuration problem), yet the exit code is 1. -/
theorem C7_counterexample :
    prologMainExitCode true ⟨false, 3, 2⟩ = 1 ∧
    (⟨false, 3, 2⟩ : PrologResults).hasError = false ∧
    0 < (⟨false, 3, 2⟩ : PrologResults).failed := by
  refine ⟨rfl, rfl, ?_⟩
  norm_num

/-- C7 amended: a missing hidden-test corpus directory makes the hidden
test runner constructor fail fast (before any per-submission work, since
no runner value exists to iterate with), and it succeeds otherwise; but
for the standalone prolog runner a zero exit requires both no error entry
and no failed test, so a non-zero exit also signals per-item test
failures, not only configuration errors. -/
theorem C7_missing_corpus_fails_fast_exit_codes :
    (∀ cfg : RunnerConfig, initRunner cfg false =
      Except.error ("Hidden tests not found: " ++ hiddenTestsDir cfg)) ∧
    (∀ cfg : RunnerConfig, ∃ runner, initRunner cfg true = Except.ok runner) ∧
    (∀ (a : Bool) (r : PrologResults), prologMainExitCode a r = 0 ↔
      (a = true ∧ r.hasError = false ∧ r.failed = 0)) := by
  refine ⟨fun cfg => rfl, fun cfg => ⟨_, rfl⟩, ?_⟩
  intro a r
  rcases r with ⟨he, p, f⟩
  cases a <;> cases he <;> simp [prologMainExitCode]

/-! ## C9: missing score source files -/

/-- C9 as stated is false: a missing visible-scores file is not treated
as an empty source; the loader opens it unguarded and raises. -/
theorem C9_counterexample :
    loadVisibleScoresFile none [] = Except.error "FileNotFoundError" := rfl

/-- C9 amended: only the plagiarism loader tolerates a missing file,
leaving the grade table unchanged; the visible and hidden loaders raise
on a missing file, and on a present file all three proceed on the parsed
rows. -/
theorem C9_only_plagiarism_source_tolerates_missing_file :
    (∀ g : Grades, loadPlagiarismResultsFile none g = g) ∧
    (∀ g : Grades,
      loadVisibleScoresFile none g = Except.error "FileNotFoundError") ∧
    (∀ g : Grades,
      loadHiddenScoresFile none g = Except.error "FileNotFoundError") ∧
    (∀ (rows : List PlagRow) (g : Grades),
      loadPlagiarismResultsFile (some rows) g = loadPlagiarismResults rows g) ∧
    (∀ (rows : List VisibleRow) (g : Grades),
      loadVisibleScoresFile (some rows) g =
        Except.ok (loadVisibleScores rows g)) ∧
    (∀ (rows : List HiddenRow) (g : Grades),
      loadHiddenScoresFile (some rows) g =
        Except.ok (loadHiddenScores rows g)) :=
  ⟨fun _ => rfl, fun _ => rfl, fun _ => rfl,
   fun _ _ => rfl, fun _ _ => rfl, fun _ _ => rfl⟩

/-! ## Association-list lemmas for the grade table -/

/-- Updating never changes the key sequence. -/
theorem keys_updateStudent (g : Grades) (sid : String)
    (f : GradeRecord → GradeRecord) :
    (updateStudent g sid f).map Prod.fst = g.map Prod.fst := by
  unfold updateStudent
  rw [List.map_map]
  apply List.map_congr_left
  intro p _
  by_cases h : p.1 == sid <;> simp [Function.comp, h]

/-- Membership seen through the key sequence. -/
theorem containsStudent_eq_keys (g : Grades) (sid : String) :
    containsStudent g sid = (g.map Prod.fst).any (fun k => k == sid) := by
  simp only [containsStudent]
  induction g with
  | nil => rfl
  | cons p rest ih => simp [List.any_cons, ih]

/-- Updating never changes membership. -/
theorem contains_updateStudent (g : Grades) (sid sid2 : String)
    (f : GradeRecord → GradeRecord) :
    containsStudent (updateStudent g sid f) sid2 = containsStudent g sid2 := by
  rw [containsStudent_eq_keys, containsStudent_eq_keys, keys_updateStudent]

/-- After the create-if-absent guard the student is present. -/
theorem contains_ensureStudent_self (g : Grades) (sid : String) :
    containsStudent (ensureStudent g sid) sid = true := by
  unfold ensureStudent
  split_ifs with h
  · exact h
  · simp [containsStudent, List.any_append]

/-- The create-if-absent guard preserves everyone already present. -/
theorem contains_ensureStudent_mono (g : Grades) (sid sid2 : String)
    (h : containsStudent g sid2 = true) :
    containsStudent (ensureStudent g sid) sid2 = true := by
  unfold ensureStudent
  split_ifs
  · exact h
  · simp only [containsStudent] at h ⊢
    rw [List.any_append, h, Bool.true_or]

/-- One loader iteration makes its own student present. -/
theorem contains_upsert_self (g : Grades) (sid : String)
    (f : GradeRecord → GradeRecord) :
    containsStudent (upsertStudent g sid f) sid = true := by
  unfold upsertStudent
  rw [contains_updateStudent]
  exact contains_ensureStudent_self g sid

/-- One loader iteration keeps everyone already present. -/
theorem contains_upsert_mono (g : Grades) (sid sid2 : String)
    (f : GradeRecord → GradeRecord) (h : containsStudent g sid2 = true) :
    containsStudent (upsertStudent g sid f) sid2 = true := by
  unfold upsertStudent
  rw [contains_updateStudent]
  exact contains_ensureStudent_mono g sid sid2 h

/-- The loader loop keeps everyone already present. -/
theorem contains_loadRows_mono {α : Type} (key : α → String)
    (set : α → GradeRecord → GradeRecord) (rows : List α) (g : Grades)
    (sid : String) (h : containsStudent g sid = true) :
    containsStudent (loadRows key set rows g) sid = true := by
  induction rows generalizing g with
  | nil => exact h
  | cons r rest ih => exact ih _ (contains_upsert_mono _ _ _ _ h)

/-- Every student named by some row is present after the loader loop. -/
theorem contains_loadRows_of_mem {α : Type} (key : α → String)
    (set : α → GradeRecord → GradeRecord) (rows : List α) (g : Grades)
    (row : α) (hm : row ∈ rows) :
    containsStudent (loadRows key set rows g) (key row) = true := by
  induction rows generalizing g with
  | nil => cases hm
  | cons r rest ih =>
      rcases List.mem_cons.mp hm with heq | hm2
      · subst heq
        exact contains_loadRows_mono key set rest _ _
          (contains_upsert_self g (key row) (set row))
      · exact ih _ hm2

/-- Lookup at a matching head entry. -/
theorem lookupStudent_cons_pos (k : String) (v : GradeRecord) (rest : Grades)
    (sid : String) (h : (k == sid) = true) :
    lookupStudent ((k, v) :: rest) sid = some v := by
  unfold lookupStudent
  rw [@List.find?_cons_of_pos _ (fun q => q.1 == sid) (k, v) rest h]
  rfl

/-- Lookup skips a non-matching head entry. -/
theorem lookupStudent_cons_neg (k : String) (v : GradeRecord) (rest : Grades)
    (sid : String) (h : (k == sid) = false) :
    lookupStudent ((k, v) :: rest) sid = lookupStudent rest sid := by
  unfold lookupStudent
  rw [@List.find?_cons_of_neg _ (fun q => q.1 == sid) (k, v) rest (by simp [h])]

/-- Membership at a cons cell. -/
theorem containsStudent_cons (k : String) (v : GradeRecord) (rest : Grades)
    (sid : String) :
    containsStudent ((k, v) :: rest) sid =
      ((k == sid) || containsStudent rest sid) := by
  simp [containsStudent, List.any_cons]

/-- Updating rewrites the stored record under the updated id. -/
theorem lookup_updateStudent_self (g : Grades) (sid : String)
    (f : GradeRecord → GradeRecord) :
    lookupStudent (updateStudent g sid f) sid = (lookupStudent g sid).map f := by
  induction g with
  | nil => rfl
  | cons p rest ih =>
      obtain ⟨k, v⟩ := p
      simp only [updateStudent, List.map_cons] at ih ⊢
      rcases hk : (k == sid) with _ | _
      · rw [if_neg (by simp [hk]), lookupStudent_cons_neg _ _ _ _ hk,
          lookupStudent_cons_neg _ _ _ _ hk]
        exact ih
      · rw [if_pos rfl, lookupStudent_cons_pos _ _ _ _ hk,
          lookupStudent_cons_pos _ _ _ _ hk]
        rfl

/-- Updating one id leaves every other id untouched. -/
theorem lookup_updateStudent_ne (g : Grades) (sid sid2 : String)
    (f : GradeRecord → GradeRecord) (h : sid ≠ sid2) :
    lookupStudent (updateStudent g sid f) sid2 = lookupStudent g sid2 := by
  induction g with
  | nil => rfl
  | cons p rest ih =>
      obtain ⟨k, v⟩ := p
      simp only [updateStudent, List.map_cons] at ih ⊢
      rcases hk : (k == sid) with _ | _
      · rw [if_neg (by simp [hk])]
        rcases hk2 : (k == sid2) with _ | _
        · rw [lookupStudent_cons_neg _ _ _ _ hk2,
            lookupStudent_cons_neg _ _ _ _ hk2]
          exact ih
        · rw [lookupStudent_cons_pos _ _ _ _ hk2,
            lookupStudent_cons_pos _ _ _ _ hk2]
      · have hk2 : (k == sid2) = false := by
          rw [beq_eq_false_iff_ne]
          intro hc
          exact h ((beq_iff_eq.mp hk) ▸ hc)
        rw [if_pos rfl, lookupStudent_cons_neg _ _ _ _ hk2,
          lookupStudent_cons_neg _ _ _ _ hk2]
        exact ih

/-- An absent student has no stored record. -/
theorem lookup_none_of_not_contains (g : Grades) (sid : String)
    (h : containsStudent g sid = false) : lookupStudent g sid = none := by
  induction g with
  | nil => rfl
  | cons p rest ih =>
      obtain ⟨k, v⟩ := p
      rw [containsStudent_cons, Bool.or_eq_false_iff] at h
      rw [lookupStudent_cons_neg _ _ _ _ h.1]
      exact ih h.2

/-- A present student has a stored record. -/
theorem lookup_some_of_contains (g : Grades) (sid : String)
    (h : containsStudent g sid = true) :
    ∃ r, lookupStudent g sid = some r := by
  induction g with
  | nil => simp [containsStudent] at h
  | cons p rest ih =>
      obtain ⟨k, v⟩ := p
      rcases hk : (k == sid) with _ | _
      · rw [containsStudent_cons, hk, Bool.false_or] at h
        obtain ⟨r, hr⟩ := ih h
        exact ⟨r, by rw [lookupStudent_cons_neg _ _ _ _ hk]; exact hr⟩
      · exact ⟨v, lookupStudent_cons_pos _ _ _ _ hk⟩

/-- Appending a fresh entry for an absent student makes it the stored
record. -/
theorem lookup_append_self (g : Grades) (sid : String) (r : GradeRecord)
    (h : lookupStudent g sid = none) :
    lookupStudent (g ++ [(sid, r)]) sid = some r := by
  induction g with
  | nil =>
      rw [List.nil_append]
      exact lookupStudent_cons_pos _ _ _ _ (by simp)
  | cons p rest ih =>
      obtain ⟨k, v⟩ := p
      rcases hk : (k == sid) with _ | _
      · rw [lookupStudent_cons_neg _ _ _ _ hk] at h
        rw [List.cons_append, lookupStudent_cons_neg _ _ _ _ hk]
        exact ih h
      · rw [lookupStudent_cons_pos _ _ _ _ hk] at h
        cases h

/-- Appending an entry for one id leaves every other id untouched. -/
theorem lookup_append_ne (g : Grades) (sid sid2 : String) (r : GradeRecord)
    (h : sid ≠ sid2) :
    lookupStudent (g ++ [(sid, r)]) sid2 = lookupStudent g sid2 := by
  induction g with
  | nil =>
      rw [List.nil_append,
        lookupStudent_cons_neg _ _ _ _ (beq_eq_false_iff_ne.mpr h)]
  | cons p rest ih =>
      obtain ⟨k, v⟩ := p
      rcases hk : (k == sid2) with _ | _
      · rw [List.cons_append, lookupStudent_cons_neg _ _ _ _ hk,
          lookupStudent_cons_neg _ _ _ _ hk]
        exact ih
      · rw [List.cons_append, lookupStudent_cons_pos _ _ _ _ hk,
          lookupStudent_cons_pos _ _ _ _ hk]

/-- One loader iteration stores the updated (possibly fresh) record under
its own id. -/
theorem lookup_upsert_self (g : Grades) (sid : String)
    (f : GradeRecord → GradeRecord) :
    lookupStudent (upsertStudent g sid f) sid =
      some (f ((lookupStudent g sid).getD (freshRecord sid))) := by
  unfold upsertStudent ensureStudent
  split_ifs with hc
  · rw [lookup_updateStudent_self]
    obtain ⟨r, hr⟩ := lookup_some_of_contains g sid hc
    rw [hr]
    rfl
  · have hnone : lookupStudent g sid = none :=
      lookup_none_of_not_contains g sid (by simpa using hc)
    rw [lookup_updateStudent_self, lookup_append_self g sid _ hnone, hnone]
    rfl

/-- One loader iteration leaves every other id untouched. -/
theorem lookup_upsert_ne (g : Grades) (sid sid2 : String)
    (f : GradeRecord → GradeRecord) (h : sid ≠ sid2) :
    lookupStudent (upsertStudent g sid f) sid2 = lookupStudent g sid2 := by
  unfold upsertStudent ensureStudent
  split_ifs
  · exact lookup_updateStudent_ne g sid sid2 f h
  · rw [lookup_updateStudent_ne _ sid sid2 f h, lookup_append_ne g sid sid2 _ h]

/-- A record field that starts at its dataclass default and that the
loader setter never writes still holds the default after the whole
loader loop. -/
theorem loadRows_default_proj {α β : Type} (key : α → String)
    (set : α → GradeRecord → GradeRecord) (proj : GradeRecord → β) (v : β)
    (hfresh : ∀ sid, proj (freshRecord sid) = v)
    (hpres : ∀ row r, proj (set row r) = proj r)
    (rows : List α) (g : Grades) (sid : String)
    (hg : ∀ r, lookupStudent g sid = some r → proj r = v) :
    ∀ r, lookupStudent (loadRows key set rows g) sid = some r → proj r = v := by
  induction rows generalizing g with
  | nil => exact hg
  | cons row rest ih =>
      refine ih (upsertStudent g (key row) (set row)) ?_
      intro r hr
      by_cases hk : key row = sid
      · subst hk
        rw [lookup_upsert_self] at hr
        have hreq : r = set row ((lookupStudent g (key row)).getD
            (freshRecord (key row))) := by
          injection hr with h2
          exact h2.symm
        rw [hreq, hpres]
        cases hl : lookupStudent g (key row) with
        | none => exact hfresh _
        | some r2 => exact hg r2 hl
      · rw [lookup_upsert_ne _ _ _ _ hk] at hr
        exact hg r hr

/-- The plagiarism update of one pairing direction never changes the key
sequence: it only rewrites an existing record. -/
theorem keys_plagiarismStep (g : Grades) (a b : String) (s : ℚ) :
    (plagiarismStep g a b s).map Prod.fst = g.map Prod.fst := by
  simp only [plagiarismStep]
  split_ifs
  · exact keys_updateStudent _ _ _
  · rfl

/-- Plagiarism ingestion never changes the key sequence. -/
theorem keys_loadPlagiarismResults (rows : List PlagRow) (g : Grades) :
    (loadPlagiarismResults rows g).map Prod.fst = g.map Prod.fst := by
  induction rows generalizing g with
  | nil => rfl
  | cons row rest ih =>
      calc (loadPlagiarismResults (row :: rest) g).map Prod.fst
          = (loadPlagiarismRow g row).map Prod.fst := ih _
        _ = g.map Prod.fst := by
            unfold loadPlagiarismRow
            rw [keys_plagiarismStep, keys_plagiarismStep]

/-- Plagiarism ingestion adds nobody and drops nobody. -/
theorem contains_loadPlagiarismResults (rows : List PlagRow) (g : Grades)
    (sid : String) :
    containsStudent (loadPlagiarismResults rows g) sid =
      containsStudent g sid := by
  rw [containsStudent_eq_keys, containsStudent_eq_keys,
    keys_loadPlagiarismResults]

/-! ## C4: the merge is a union only for the visible and hidden sources -/

/-- C4 as stated is false for the plagiarism source: a student named only
in the plagiarism report is skipped, not added, so the final mapping
stays empty when the report is the only source. -/
theorem C4_counterexample :
    loadPlagiarismResults [⟨"lab01-alice", "lab01-bob", 85⟩] [] = ([] : Grades) ∧
    containsStudent
      (loadPlagiarismResults [⟨"lab01-alice", "lab01-bob", 85⟩] [])
      "alice" = false :=
  ⟨rfl, rfl⟩

/-- C4 amended: the visible and hidden loaders are unions over the key
space (every student named by a row ends up present, and a student absent
from the other sources keeps the defaults for the fields those sources
would have written), but the plagiarism loader only updates records of
students already present and never adds one. -/
theorem C4_merge_union_visible_hidden_only :
    (∀ (rows : List VisibleRow) (g : Grades) (row : VisibleRow), row ∈ rows →
      containsStudent (loadVisibleScores rows g) row.student_id = true) ∧
    (∀ (rows : List HiddenRow) (g : Grades) (row : HiddenRow), row ∈ rows →
      containsStudent (loadHiddenScores rows g) row.student_id = true) ∧
    (∀ (rows : List HiddenRow) (g : Grades) (sid : String),
      containsStudent g sid = false →
      ∀ r, lookupStudent (loadHiddenScores rows g) sid = some r →
        r.visible_score = 0 ∧ r.plagiarism_similarity = 0 ∧
          r.plagiarism_flag = false) ∧
    (∀ (rows : List VisibleRow) (g : Grades) (sid : String),
      containsStudent g sid = false →
      ∀ r, lookupStudent (loadVisibleScores rows g) sid = some r →
        r.hidden_score = 0 ∧ r.plagiarism_similarity = 0 ∧
          r.plagiarism_flag = false) ∧
    (∀ (rows : List PlagRow) (g : Grades) (sid : String),
      containsStudent (loadPlagiarismResults rows g) sid =
        containsStudent g sid) := by
  refine ⟨?_, ?_, ?_, ?_, ?_⟩
  · intro rows g row hm
    exact contains_loadRows_of_mem _ _ rows g row hm
  · intro rows g row hm
    exact contains_loadRows_of_mem _ _ rows g row hm
  · intro rows g sid hc r hr
    have hnone : ∀ (r2 : GradeRecord),
        lookupStudent g sid = some r2 → False := by
      intro r2 hr2
      rw [lookup_none_of_not_contains g sid hc] at hr2
      cases hr2
    exact ⟨loadRows_default_proj (fun row : HiddenRow => row.student_id)
        (fun row r => { r with
          hidden_score := row.hidden_score
          github_username := lastSplitSegment '/' row.repository })
        (fun r => r.visible_score) 0
        (fun _ => rfl) (fun _ _ => rfl) rows g sid
        (fun r2 hr2 => (hnone r2 hr2).elim) r hr,
      loadRows_default_proj (fun row : HiddenRow => row.student_id)
        (fun row r => { r with
          hidden_score := row.hidden_score
          github_username := lastSplitSegment '/' row.repository })
        (fun r => r.plagiarism_similarity) 0
        (fun _ => rfl) (fun _ _ => rfl) rows g sid
        (fun r2 hr2 => (hnone r2 hr2).elim) r hr,
      loadRows_default_proj (fun row : HiddenRow => row.student_id)
        (fun row r => { r with
          hidden_score := row.hidden_score
          github_username := lastSplitSegment '/' row.repository })
        (fun r => r.plagiarism_flag) false
        (fun _ => rfl) (fun _ _ => rfl) rows g sid
        (fun r2 hr2 => (hnone r2 hr2).elim) r hr⟩
  · intro rows g sid hc r hr
    have hnone : ∀ (r2 : GradeRecord),
        lookupStudent g sid = some r2 → False := by
      intro r2 hr2
      rw [lookup_none_of_not_contains g sid hc] at hr2
      cases hr2
    exact ⟨loadRows_default_proj (fun row : VisibleRow => row.student_id)
        (fun row r => { r with visible_score := row.grade })
        (fun r => r.hidden_score) 0
        (fun _ => rfl) (fun _ _ => rfl) rows g sid
        (fun r2 hr2 => (hnone r2 hr2).elim) r hr,
      loadRows_default_proj (fun row : VisibleRow => row.student_id)
        (fun row r => { r with visible_score := row.grade })
        (fun r => r.plagiarism_similarity) 0
        (fun _ => rfl) (fun _ _ => rfl) rows g sid
        (fun r2 hr2 => (hnone r2 hr2).elim) r hr,
      loadRows_default_proj (fun row : VisibleRow => row.student_id)
        (fun row r => { r with visible_score := row.grade })
        (fun r => r.plagiarism_flag) false
        (fun _ => rfl) (fun _ _ => rfl) rows g sid
        (fun r2 hr2 => (hnone r2 hr2).elim) r hr⟩
  · intro rows g sid
    exact contains_loadPlagiarismResults rows g sid

/-- Witness for C4 on concrete single-row sources. -/
theorem C4_merge_union_visible_hidden_only_witness :
    containsStudent (loadVisibleScores [⟨"alice", 70⟩] []) "alice" = true ∧
    containsStudent (loadHiddenScores [⟨"bob", 60, "csc3301-lab01-bob"⟩] [])
      "bob" = true ∧
    (∃ r, lookupStudent (loadHiddenScores [⟨"bob", 60, "csc3301-lab01-bob"⟩] [])
        "bob" = some r ∧ r.visible_score = 0 ∧ r.plagiarism_flag = false) ∧
    containsStudent
      (loadPlagiarismResults [⟨"lab01-alice", "lab01-bob", 85⟩]
        [("bob", freshRecord "bob")]) "bob" = true := by
  refine ⟨?_, ?_, ?_, ?_⟩
  · exact C4_merge_union_visible_hidden_only.1 _ [] _ (List.mem_cons_self _ _)
  · exact C4_merge_union_visible_hidden_only.2.1 _ [] _ (List.mem_cons_self _ _)
  · obtain ⟨r, hr⟩ : ∃ r,
        lookupStudent (loadHiddenScores [⟨"bob", 60, "csc3301-lab01-bob"⟩] [])
          "bob" = some r := ⟨_, rfl⟩
    have hdef := C4_merge_union_visible_hidden_only.2.2.1
      [⟨"bob", 60, "csc3301-lab01-bob"⟩] [] "bob" rfl r hr
    exact ⟨r, hr, hdef.1, hdef.2.2⟩
  · rw [C4_merge_union_visible_hidden_only.2.2.2.2]
    rfl

/-! ## C5: similarity is the maximum over all pairings naming a student -/

/-- A stored record implies membership. -/
theorem contains_of_lookup_some (g : Grades) (sid : String)
    (r0 : GradeRecord) (h : lookupStudent g sid = some r0) :
    containsStudent g sid = true := by
  rcases hc : containsStudent g sid with _ | _
  · rw [lookup_none_of_not_contains g sid hc] at h
    cases h
  · rfl

/-- Effect of one pairing direction on one stored record: nothing when
the extracted id differs, otherwise the strict-improvement update of
similarity and partner. -/
theorem lookup_plagiarismStep (g : Grades) (a b : String) (s : ℚ)
    (sid : String) (r0 : GradeRecord) (h : lookupStudent g sid = some r0) :
    ∃ r1, lookupStudent (plagiarismStep g a b s) sid = some r1 ∧
      ((extractStudentIdFromSubmission a ≠ sid ∧ r1 = r0) ∨
       (extractStudentIdFromSubmission a = sid ∧
         ((r0.plagiarism_similarity < s ∧
            r1 = { r0 with
              plagiarism_similarity := s
              plagiarism_partner := b }) ∨
          (¬ r0.plagiarism_similarity < s ∧ r1 = r0)))) := by
  simp only [plagiarismStep]
  by_cases ha : extractStudentIdFromSubmission a = sid
  · rw [ha, if_pos (contains_of_lookup_some g sid r0 h),
      lookup_updateStudent_self, h]
    by_cases hs : r0.plagiarism_similarity < s
    · refine ⟨_, rfl, Or.inr ⟨rfl, Or.inl ⟨hs, ?_⟩⟩⟩
      simp [hs]
    · refine ⟨_, rfl, Or.inr ⟨rfl, Or.inr ⟨hs, ?_⟩⟩⟩
      simp [hs]
  · by_cases hc : containsStudent g (extractStudentIdFromSubmission a) = true
    · rw [if_pos hc, lookup_updateStudent_ne _ _ _ _ ha]
      exact ⟨r0, h, Or.inl ⟨ha, rfl⟩⟩
    · rw [if_neg hc]
      exact ⟨r0, h, Or.inl ⟨ha, rfl⟩⟩

/-- Whether a report row names a student (on either side, after id
extraction). -/
def namesStudent (sid : String) (row : PlagRow) : Bool :=
  (extractStudentIdFromSubmission row.submission1 == sid) ||
    (extractStudentIdFromSubmission row.submission2 == sid)

/-- Running maximum of the similarities of the rows naming a student,
seeded with the similarity already stored. -/
def maxSimilarityFold (sid : String) (rows : List PlagRow) (a : ℚ) : ℚ :=
  rows.foldl
    (fun m row => if namesStudent sid row then max m row.similarity else m) a

/-- The running maximum never falls below its seed. -/
theorem le_maxSimilarityFold (sid : String) (rows : List PlagRow) :
    ∀ a : ℚ, a ≤ maxSimilarityFold sid rows a := by
  induction rows with
  | nil => intro a; exact le_rfl
  | cons row rest ih =>
      intro a
      have h1 : a ≤ (if namesStudent sid row then max a row.similarity else a) := by
        split_ifs
        · exact le_max_left _ _
        · exact le_rfl
      exact le_trans h1 (ih _)

/-- Every similarity of a row naming the student is below the running
maximum. -/
theorem mem_le_maxSimilarityFold (sid : String) (row : PlagRow) :
    ∀ (rows : List PlagRow) (a : ℚ), row ∈ rows →
      namesStudent sid row = true →
      row.similarity ≤ maxSimilarityFold sid rows a := by
  intro rows
  induction rows with
  | nil => intro a hm _; cases hm
  | cons r2 rest ih =>
      intro a hm hn
      rcases List.mem_cons.mp hm with heq | hm2
      · subst heq
        have h1 : row.similarity ≤
            (if namesStudent sid row then max a row.similarity else a) := by
          rw [if_pos hn]
          exact le_max_right _ _
        exact le_trans h1 (le_maxSimilarityFold sid rest _)
      · exact ih _ hm2 hn

/-- The running maximum is its seed or a similarity of some row naming
the student. -/
theorem maxSimilarityFold_eq_or_mem (sid : String) :
    ∀ (rows : List PlagRow) (a : ℚ), maxSimilarityFold sid rows a = a ∨
      ∃ row ∈ rows, namesStudent sid row = true ∧
        row.similarity = maxSimilarityFold sid rows a := by
  intro rows
  induction rows with
  | nil => intro a; exact Or.inl rfl
  | cons r2 rest ih =>
      intro a
      rcases hn : namesStudent sid r2 with _ | _
      · have hstep : maxSimilarityFold sid (r2 :: rest) a =
            maxSimilarityFold sid rest a := by
          simp [maxSimilarityFold, hn]
        rcases ih a with h | ⟨row, hm, hnr, hsim⟩
        · exact Or.inl (by rw [hstep, h])
        · exact Or.inr ⟨row, List.mem_cons_of_mem _ hm, hnr,
            by rw [hstep]; exact hsim⟩
      · have hstep : maxSimilarityFold sid (r2 :: rest) a =
            maxSimilarityFold sid rest (max a r2.similarity) := by
          simp [maxSimilarityFold, hn]
        rcases ih (max a r2.similarity) with h | ⟨row, hm, hnr, hsim⟩
        · rcases le_total r2.similarity a with hle | hle
          · exact Or.inl (by rw [hstep, h, max_eq_left hle])
          · refine Or.inr ⟨r2, List.mem_cons_self _ _, hn, ?_⟩
            rw [hstep, h, max_eq_right hle]
        · exact Or.inr ⟨row, List.mem_cons_of_mem _ hm, hnr,
            by rw [hstep]; exact hsim⟩

/-- Effect of one report row on one stored record: both pairing
directions are applied, so the stored similarity becomes the maximum of
the old one and the row similarity whenever the row names the student,
and any change records the row similarity together with the partner on
the other side of the pairing. -/
theorem lookup_loadPlagiarismRow (g : Grades) (row : PlagRow) (sid : String)
    (r0 : GradeRecord) (h : lookupStudent g sid = some r0) :
    ∃ r1, lookupStudent (loadPlagiarismRow g row) sid = some r1 ∧
      r1.plagiarism_similarity =
        (if namesStudent sid row then
          max r0.plagiarism_similarity row.similarity
         else r0.plagiarism_similarity) ∧
      (r1 = r0 ∨
        (row.similarity = r1.plagiarism_similarity ∧
          ((extractStudentIdFromSubmission row.submission1 = sid ∧
             r1.plagiarism_partner = row.submission2) ∨
           (extractStudentIdFromSubmission row.submission2 = sid ∧
             r1.plagiarism_partner = row.submission1)))) := by
  obtain ⟨rmid, hmid, hc1⟩ := lookup_plagiarismStep g row.submission1
    row.submission2 row.similarity sid r0 h
  obtain ⟨r1, h1, hc2⟩ := lookup_plagiarismStep _ row.submission2
    row.submission1 row.similarity sid rmid hmid
  rcases hc1 with ⟨hne1, rfl⟩ | ⟨heq1, ⟨hs1, rfl⟩ | ⟨hs1, rfl⟩⟩
  · -- first direction did not name the student
    rcases hc2 with ⟨hne2, rfl⟩ | ⟨heq2, ⟨hs2, rfl⟩ | ⟨hs2, rfl⟩⟩
    · have hnames : namesStudent sid row = false := by
        simp [namesStudent, beq_eq_false_iff_ne.mpr hne1,
          beq_eq_false_iff_ne.mpr hne2]
      exact ⟨_, h1, by rw [hnames, if_neg (by simp)], Or.inl rfl⟩
    · have hnames : namesStudent sid row = true := by
        simp [namesStudent, heq2]
      refine ⟨_, h1, ?_, Or.inr ⟨rfl, Or.inr ⟨heq2, rfl⟩⟩⟩
      rw [hnames, if_pos rfl]
      exact (max_eq_right (le_of_lt hs2)).symm
    · have hnames : namesStudent sid row = true := by
        simp [namesStudent, heq2]
      refine ⟨_, h1, ?_, Or.inl rfl⟩
      rw [hnames, if_pos rfl]
      exact (max_eq_left (not_lt.mp hs2)).symm
  · -- first direction named the student and improved the similarity
    have hnames : namesStudent sid row = true := by
      simp [namesStudent, heq1]
    rcases hc2 with ⟨hne2, rfl⟩ | ⟨heq2, ⟨hs2, rfl⟩ | ⟨hs2, rfl⟩⟩
    · refine ⟨_, h1, ?_, Or.inr ⟨rfl, Or.inl ⟨heq1, rfl⟩⟩⟩
      rw [hnames, if_pos rfl]
      exact (max_eq_right (le_of_lt hs1)).symm
    · exfalso
      simp only at hs2
      exact absurd hs2 (lt_irrefl _)
    · refine ⟨_, h1, ?_, Or.inr ⟨rfl, Or.inl ⟨heq1, rfl⟩⟩⟩
      rw [hnames, if_pos rfl]
      exact (max_eq_right (le_of_lt hs1)).symm
  · -- first direction named the student without improvement
    have hnames : namesStudent sid row = true := by
      simp [namesStudent, heq1]
    rcases hc2 with ⟨hne2, rfl⟩ | ⟨heq2, ⟨hs2, rfl⟩ | ⟨hs2, rfl⟩⟩
    · refine ⟨_, h1, ?_, Or.inl rfl⟩
      rw [hnames, if_pos rfl]
      exact (max_eq_left (not_lt.mp hs1)).symm
    · exact absurd hs2 hs1
    · refine ⟨_, h1, ?_, Or.inl rfl⟩
      rw [hnames, if_pos rfl]
      exact (max_eq_left (not_lt.mp hs1)).symm

/-- Effect of the whole ingestion loop on one stored record. -/
theorem lookup_loadPlagiarismResults (rows : List PlagRow) (g : Grades)
    (sid : String) (r0 : GradeRecord) (h : lookupStudent g sid = some r0) :
    ∃ r1, lookupStudent (loadPlagiarismResults rows g) sid = some r1 ∧
      r1.plagiarism_similarity =
        maxSimilarityFold sid rows r0.plagiarism_similarity ∧
      (r1 = r0 ∨ ∃ row ∈ rows,
        row.similarity = r1.plagiarism_similarity ∧
        ((extractStudentIdFromSubmission row.submission1 = sid ∧
           r1.plagiarism_partner = row.submission2) ∨
         (extractStudentIdFromSubmission row.submission2 = sid ∧
           r1.plagiarism_partner = row.submission1))) := by
  induction rows generalizing g r0 with
  | nil => exact ⟨r0, h, rfl, Or.inl rfl⟩
  | cons row rest ih =>
      obtain ⟨rmid, hmid, hsim, hpart⟩ := lookup_loadPlagiarismRow g row sid r0 h
      obtain ⟨r1, h1, hsim1, hpart1⟩ := ih (loadPlagiarismRow g row) rmid hmid
      refine ⟨r1, h1, ?_, ?_⟩
      · rw [hsim1, hsim]
        rfl
      · rcases hpart1 with rfl | ⟨row2, hm2, hse, hside⟩
        · rcases hpart with h0 | ⟨hse, hside⟩
          · exact Or.inl h0
          · exact Or.inr ⟨row, List.mem_cons_self _ _, hse, hside⟩
        · exact Or.inr ⟨row2, List.mem_cons_of_mem _ hm2, hse, hside⟩

/-- C5: starting from a freshly loaded record (similarity 0), after
plagiarism ingestion the stored similarity is an upper bound of every
pairing naming the student and is attained by one of them (so it is the
maximum, never an average); both pairing directions are applied; and the
stored partner, when it changed at all, is the other submission of a
pairing whose similarity equals the stored maximum. -/
theorem C5_similarity_is_max_over_pairings (rows : List PlagRow) (g : Grades)
    (sid : String) (r0 r1 : GradeRecord)
    (h0 : lookupStudent g sid = some r0)
    (hsim0 : r0.plagiarism_similarity = 0)
    (h1 : lookupStudent (loadPlagiarismResults rows g) sid = some r1) :
    (∀ row ∈ rows, namesStudent sid row = true →
      row.similarity ≤ r1.plagiarism_similarity) ∧
    0 ≤ r1.plagiarism_similarity ∧
    (r1.plagiarism_similarity = 0 ∨ ∃ row ∈ rows,
      namesStudent sid row = true ∧
        row.similarity = r1.plagiarism_similarity) ∧
    (r1.plagiarism_partner = r0.plagiarism_partner ∨ ∃ row ∈ rows,
      row.similarity = r1.plagiarism_similarity ∧
      ((extractStudentIdFromSubmission row.submission1 = sid ∧
         r1.plagiarism_partner = row.submission2) ∨
       (extractStudentIdFromSubmission row.submission2 = sid ∧
         r1.plagiarism_partner = row.submission1))) := by
  obtain ⟨r2, h2, hsim, hpart⟩ := lookup_loadPlagiarismResults rows g sid r0 h0
  have hr : r1 = r2 := by
    rw [h1] at h2
    injection h2
  subst hr
  rw [hsim0] at hsim
  refine ⟨?_, ?_, ?_, ?_⟩
  · intro row hm hn
    rw [hsim]
    exact mem_le_maxSimilarityFold sid row rows 0 hm hn
  · rw [hsim]
    exact le_maxSimilarityFold sid rows 0
  · rcases maxSimilarityFold_eq_or_mem sid rows 0 with h | ⟨row, hm, hn, hs⟩
    · exact Or.inl (by rw [hsim, h])
    · exact Or.inr ⟨row, hm, hn, by rw [hsim]; exact hs⟩
  · rcases hpart with h | ⟨row, hm, hs, hside⟩
    · exact Or.inl (by rw [h])
    · exact Or.inr ⟨row, hm, hs, hside⟩

/-- Concrete two-student table for the C5 witness. -/
def C5grades : Grades :=
  [("alice", freshRecord "alice"), ("bob", freshRecord "bob")]

/-- Concrete one-row report for the C5 witness. -/
def C5rows : List PlagRow := [⟨"lab01-alice", "lab01-bob", 85⟩]

/-- Witness for C5 on a concrete report naming both students. -/
theorem C5_similarity_is_max_over_pairings_witness :
    ∃ r1, lookupStudent (loadPlagiarismResults C5rows C5grades) "alice" =
        some r1 ∧
      (∀ row ∈ C5rows, namesStudent "alice" row = true →
        row.similarity ≤ r1.plagiarism_similarity) ∧
      (r1.plagiarism_similarity = 0 ∨ ∃ row ∈ C5rows,
        namesStudent "alice" row = true ∧
          row.similarity = r1.plagiarism_similarity) := by
  obtain ⟨r1, hr1⟩ : ∃ r1,
      lookupStudent (loadPlagiarismResults C5rows C5grades) "alice" =
        some r1 := ⟨_, rfl⟩
  have hthm := C5_similarity_is_max_over_pairings C5rows C5grades "alice"
    (freshRecord "alice") r1 rfl rfl hr1
  exact ⟨r1, hr1, hthm.1, hthm.2.2.1⟩
